import Mathlib

/-!
Shallow embedding of the graphinator liquidation pipeline
(`src/graphinator.ts`) in Lean 4.

JavaScript `Number` arithmetic is modelled over `ℚ` (rationals), with
`Math.round` / `Math.floor` made explicit; `bigint` values are modelled
over `ℤ`.  JavaScript truthiness tests on numbers (`x ? a : b`) are
modelled as a test `x ≠ 0`, and `undefined` as `Option.none`.
-/

namespace Graphinator

/-- JavaScript `Math.round`: rounds half-way cases towards +∞,
i.e. `Math.round x = ⌊x + 1/2⌋`. -/
def jsRound (q : ℚ) : ℤ := ⌊q + 1/2⌋

/-- JavaScript `Math.floor`. -/
def jsFloor (q : ℚ) : ℤ := ⌊q⌋

/-- A flow snapshot, as consumed by `graphinator.ts`
(fields taken from their uses in `_calculateMaxGasPrice` and
`_generateBatchLiquidationTxData`; the declaring file `types/types.ts`
is not part of the sources, the field set matches the spec's data
model).  `flowrate` is a `bigint` in the source (modelled `ℤ`);
`consumedDepositPercentage` is a JS number (modelled `ℚ`). -/
structure Flow where
  token : String
  sender : String
  receiver : String
  agreementType : ℕ
  flowrate : ℤ
  consumedDepositPercentage : ℚ
deriving DecidableEq, Repr

/-- The per-run configuration held by the `Graphinator` class that the
gas-price policy and batching use. -/
structure Config where
  referenceGasPriceLimit : ℚ
  fallbackGasPriceLimit : ℚ
  minGasPriceLimit : ℚ
  gasMultiplier : ℚ
  batchSize : ℕ
deriving DecidableEq, Repr

/-- A token-price table (`this.tokenPrices`): JS object lookup returns
`undefined` (here `none`) for an absent key. -/
def PriceTable : Type := String → Option ℚ

/-- The time-based multiplier computed inside `_calculateMaxGasPrice`
(lines 163–169): `1` unless `flow.consumedDepositPercentage` is truthy
and `> 100`, else `1 + min((pct − 100)·4/100/24, 10)`. -/
def timeMultiplier (pct : ℚ) : ℚ :=
  if pct ≠ 0 ∧ 100 < pct then
    1 + min ((pct - 100) * 4 / 100 / 24) 10
  else 1

/-- The local constant `dailyNFR` of `_calculateMaxGasPrice`
(line 156):
`dailyNFR = tokenPrice ? Math.round(flowrate * 86400 * tokenPrice) : undefined`
— the guard is JS truthiness, so a present price of `0` takes the
`undefined` branch. -/
def dailyNFR (prices : PriceTable) (flow : Flow) : Option ℤ :=
  match prices flow.token with
  | some p => if p ≠ 0 then some (jsRound ((flow.flowrate : ℚ) * 86400 * p)) else none
  | none => none

/-- The local constant `baseMaxGasPrice` of `_calculateMaxGasPrice`
(line 157):
`dailyNFR ? Math.max(min, Math.round(dailyNFR·ref/refDailyNFR)) : fallback`
— again a truthiness guard, so a `dailyNFR` that rounded to `0` is
falsy and takes the fallback branch (`refDailyNFR = 1e18`). -/
def baseMaxGasPrice (cfg : Config) (prices : PriceTable) (flow : Flow) : ℚ :=
  match dailyNFR prices flow with
  | some d =>
      if d ≠ 0 then
        max cfg.minGasPriceLimit
          ((jsRound ((d : ℚ) * cfg.referenceGasPriceLimit / 10 ^ 18) : ℚ))
      else cfg.fallbackGasPriceLimit
  | none => cfg.fallbackGasPriceLimit

/-- `_calculateMaxGasPrice` (lines 151–172):
`Math.round(baseMaxGasPrice * timeMultiplier)`. -/
def calculateMaxGasPrice (cfg : Config) (prices : PriceTable) (flow : Flow) : ℤ :=
  jsRound (baseMaxGasPrice cfg prices flow * timeMultiplier flow.consumedDepositPercentage)

/-- Insert an element into a list that is sorted non-increasingly by the
key `k`, keeping it sorted.  Models one step of
`flowsWorthLiquidating.sort((a, b) => mgp(b) - mgp(a))` (line 124): the
comparator orders by `_calculateMaxGasPrice`, descending. -/
def insertDescBy (k : α → ℤ) (x : α) : List α → List α
  | [] => [x]
  | y :: ys => if k y < k x then x :: y :: ys else y :: insertDescBy k x ys

/-- Sort a list non-increasingly by the key `k`
(the effect of `Array.prototype.sort` with comparator
`(a, b) => k(b) - k(a)`, line 124). -/
def sortDescBy (k : α → ℤ) : List α → List α
  | [] => []
  | x :: xs => insertDescBy k x (sortDescBy k xs)

/-- `_chunkArray` (lines 224–230): consecutive slices of `size`
elements.  The source loop `for (i = 0; i < length; i += size)` does not
terminate when `size = 0`; callers always pass `size ≥ 1`
(`batchSize`), and we return `[]` in that unreachable case. -/
def chunkArray : List α → ℕ → List (List α)
  | [], _ => []
  | x :: xs, size =>
    if h0 : size = 0 then []
    else (x :: xs).take size :: chunkArray ((x :: xs).drop size) size
termination_by l _ => l.length
decreasing_by
  simp only [List.length_drop, List.length_cons]
  omega

/-- The selection performed in `processAll` (lines 120–127): filter out
flows whose max gas price is below the current one, sort descending by
max gas price, then chunk by `batchSize`. -/
def selectBatches (cfg : Config) (prices : PriceTable) (flows : List Flow)
    (currentGasPrice : ℚ) : List (List Flow) :=
  let flowsWorthLiquidating :=
    flows.filter (fun flow => currentGasPrice ≤ (calculateMaxGasPrice cfg prices flow : ℚ))
  chunkArray (sortDescBy (calculateMaxGasPrice cfg prices) flowsWorthLiquidating) cfg.batchSize

/-! ### Transaction assembly and submission

Chain-effect results (`estimateGas`, `getNetwork`, `getTransactionCount`,
`signTransaction`, `broadcastTransaction`, `wait`) are supplied by an
oracle environment; each may fail, modelling a thrown/rejected promise. -/

/-- The encoded call data produced by
`encodeFunctionData('deleteFlows', [token, structParams])`
(lines 242–247), modelled abstractly as its arguments: the token and,
per flow, `(agreementOperation, sender, receiver)`. -/
structure BatchCall where
  token : String
  ops : List (ℕ × String × String)
deriving DecidableEq, Repr

/-- The `{data, to}` pair returned by `_generateBatchLiquidationTxData`
(`to` is a Lean keyword, so the field is named `toAddr`). -/
structure TxData where
  data : BatchCall
  toAddr : String
deriving DecidableEq, Repr

/-- The transaction request assembled at lines 187–194. -/
structure Tx where
  toAddr : String
  data : BatchCall
  gasLimit : ℤ
  gasPrice : ℤ
  chainId : ℕ
  nonce : ℕ
deriving DecidableEq, Repr

/-- Chain-effect actions recorded by the pipeline, in invocation
order. -/
inductive EffAction where
  | estimateGas
  | getChainId
  | getNonce
  | sign
  | broadcast
  | waitConf
deriving DecidableEq, Repr

/-- Outcome of `batchLiquidateFlows` for one batch. -/
inductive BatchOutcome where
  | success (tx : Tx) (hash : Option String)
  | dryRunLogged (tx : Tx)
  | failed (error : String)
deriving DecidableEq, Repr

/-- Oracle environment for the chain RPC boundary. -/
structure ChainEnv where
  batchLiquidatorAddr : String
  estimateGas : TxData → Except String ℤ
  chainId : Except String ℕ
  nonce : Except String ℕ
  sign : Tx → Except String String
  broadcast : String → Except String String
  waitConf : String → Except String (Option String)

/-- `_generateBatchLiquidationTxData` (lines 238–250): throws
`"flow with wrong token"` unless every flow's token equals `token`,
otherwise returns the encoded `deleteFlows` call and the batch
liquidator address. -/
def generateBatchLiquidationTxData (env : ChainEnv) (token : String) (flows : List Flow) :
    Except String TxData :=
  if flows.all (fun flow => flow.token == token) then
    Except.ok
      { data := { token := token,
                  ops := flows.map (fun f => (f.agreementType, f.sender, f.receiver)) },
        toAddr := env.batchLiquidatorAddr }
  else Except.error "flow with wrong token"

/-- `_estimateGasLimit` (lines 257–263):
`Math.floor(Number(gasEstimate) * gasMultiplier)`. -/
def estimateGasLimit (cfg : Config) (gasEstimate : ℤ) : ℤ :=
  jsFloor ((gasEstimate : ℚ) * cfg.gasMultiplier)

/-- The body of the `try` block of `batchLiquidateFlows`
(lines 184–203), returning the outcome or the thrown error, together
with the trace of chain effects invoked.  `dryRun` models
`process.env.DRY_RUN` being set. -/
def liquidationPipeline (env : ChainEnv) (cfg : Config) (dryRun : Bool)
    (token : String) (flows : List Flow) (maxGasPrice : ℤ) :
    Except String BatchOutcome × List EffAction :=
  match generateBatchLiquidationTxData env token flows with
  | Except.error e => (Except.error e, [])
  | Except.ok txData =>
    match env.estimateGas txData with
    | Except.error e => (Except.error e, [EffAction.estimateGas])
    | Except.ok est =>
      let gasLimit := estimateGasLimit cfg est
      match env.chainId with
      | Except.error e => (Except.error e, [EffAction.estimateGas, EffAction.getChainId])
      | Except.ok cid =>
        match env.nonce with
        | Except.error e =>
            (Except.error e, [EffAction.estimateGas, EffAction.getChainId, EffAction.getNonce])
        | Except.ok n =>
          let tx : Tx := { toAddr := txData.toAddr, data := txData.data, gasLimit := gasLimit,
                           gasPrice := maxGasPrice, chainId := cid, nonce := n }
          let pre := [EffAction.estimateGas, EffAction.getChainId, EffAction.getNonce]
          if dryRun then (Except.ok (BatchOutcome.dryRunLogged tx), pre)
          else
            match env.sign tx with
            | Except.error e => (Except.error e, pre ++ [EffAction.sign])
            | Except.ok signedTx =>
              match env.broadcast signedTx with
              | Except.error e => (Except.error e, pre ++ [EffAction.sign, EffAction.broadcast])
              | Except.ok resp =>
                match env.waitConf resp with
                | Except.error e =>
                    (Except.error e,
                     pre ++ [EffAction.sign, EffAction.broadcast, EffAction.waitConf])
                | Except.ok receiptHash =>
                    (Except.ok (BatchOutcome.success tx receiptHash),
                     pre ++ [EffAction.sign, EffAction.broadcast, EffAction.waitConf])

/-- `batchLiquidateFlows` (lines 182–207): the whole pipeline runs
inside `try { ... } catch (error) { console.error(...) }`, so a thrown
error becomes a logged `failed` outcome and never propagates. -/
def batchLiquidateFlows (env : ChainEnv) (cfg : Config) (dryRun : Bool)
    (token : String) (flows : List Flow) (maxGasPrice : ℤ) :
    BatchOutcome × List EffAction :=
  match liquidationPipeline env cfg dryRun token flows maxGasPrice with
  | (Except.error e, tr) => (BatchOutcome.failed e, tr)
  | (Except.ok o, tr) => (o, tr)

/-- The per-token batch loop of `processAll` (lines 128–131):
`for (const chunk of chunks) { await this.batchLiquidateFlows(...) }`.
The loop body is awaited sequentially; an exception escaping
`batchLiquidateFlows` would propagate (hence the `Except` codomain),
but `batchLiquidateFlows` catches internally. -/
def runChunks (env : ChainEnv) (cfg : Config) (dryRun : Bool) (token : String)
    (maxGasPrice : ℤ) : List (List Flow) → Except String (List BatchOutcome)
  | [] => Except.ok []
  | chunk :: rest =>
    let (o, _) := batchLiquidateFlows env cfg dryRun token chunk maxGasPrice
    match runChunks env cfg dryRun token maxGasPrice rest with
    | Except.error e => Except.error e
    | Except.ok os => Except.ok (o :: os)

/-- Per-token inputs of one `processAll` run: the flows returned by
`dataFetcher.getFlowsToLiquidate` and the fee data returned by
`provider.getFeeData()`.  `feeGasPrice = none` models a `null`
`gasPrice` field; `Number(null) = 0` is falsy, so the source throws in
that case (line 115–117), and likewise for a zero fee. -/
structure TokenRun where
  token : String
  flows : List Flow
  feeGasPrice : Option ℚ

/-- The body of the per-token loop of `processAll` (lines 103–135) for
one token: no flows means nothing to do; a missing (or zero) current
gas price throws `"Current gas price not found"`; otherwise the
selected batches are submitted sequentially with bid price
`Math.floor(currentGasPrice * 1.2)`. -/
def processToken (env : ChainEnv) (cfg : Config) (dryRun : Bool) (prices : PriceTable)
    (tr : TokenRun) : Except String (List BatchOutcome) :=
  if tr.flows.isEmpty then Except.ok []
  else
    let currentGasPrice : ℚ := tr.feeGasPrice.getD 0
    if currentGasPrice = 0 then Except.error "Current gas price not found"
    else
      runChunks env cfg dryRun tr.token (jsFloor (currentGasPrice * (6/5)))
        (selectBatches cfg prices tr.flows currentGasPrice)

/-- The token loop of `processAll` (lines 103–135).  There is no
`try`/`catch` around the loop body, so an error thrown while processing
one token aborts the whole call: the result pairs the per-token
outcomes produced before the first error with that error (`none` when
every token was processed). -/
def processAll (env : ChainEnv) (cfg : Config) (dryRun : Bool) (prices : PriceTable) :
    List TokenRun → List (List BatchOutcome) × Option String
  | [] => ([], none)
  | tr :: rest =>
    match processToken env cfg dryRun prices tr with
    | Except.error e => ([], some e)
    | Except.ok outs =>
      let (others, err) := processAll env cfg dryRun prices rest
      (outs :: others, err)

/-! ### Statement of the claimed base ceiling, and concrete instances -/

/-- The base ceiling exactly as the spec's claim words it (for
comparison with `baseMaxGasPrice`, which is taken from the source):
`max(minGasPriceLimit, round(flowrate × 86400 × price × referenceGasPriceLimit / 10^18))`. -/
def claimedBaseCeiling (cfg : Config) (price : ℚ) (flow : Flow) : ℚ :=
  max cfg.minGasPriceLimit
    ((jsRound ((flow.flowrate : ℚ) * 86400 * price * cfg.referenceGasPriceLimit / 10 ^ 18) : ℚ))

/-- A concrete configuration (limits in wei): reference 1000, fallback
10000, min 100, gas multiplier 1.2, batch size 1.  Satisfies the
constructor invariant `min ≤ fallback ∧ min ≤ reference`. -/
def cfgW : Config :=
  { referenceGasPriceLimit := 1000, fallbackGasPriceLimit := 10000,
    minGasPriceLimit := 100, gasMultiplier := 6/5, batchSize := 1 }

/-- A price table knowing only token `"a"`, at the given price. -/
def priceA (p : ℚ) : PriceTable := fun t => if t = "a" then some p else none

/-- The empty price table. -/
def priceNone : PriceTable := fun _ => none

/-- A concrete flow of token `"a"`. -/
def flowA : Flow :=
  { token := "a", sender := "s1", receiver := "r1", agreementType := 0,
    flowrate := 1, consumedDepositPercentage := 0 }

/-- A concrete flow of token `"b"`. -/
def flowB : Flow :=
  { token := "b", sender := "s2", receiver := "r2", agreementType := 0,
    flowrate := 5, consumedDepositPercentage := 150 }

/-- A chain environment in which every RPC call succeeds. -/
def envOk : ChainEnv :=
  { batchLiquidatorAddr := "liq",
    estimateGas := fun _ => Except.ok 21000,
    chainId := Except.ok 10,
    nonce := Except.ok 7,
    sign := fun _ => Except.ok "signedTx",
    broadcast := fun _ => Except.ok "txHash",
    waitConf := fun h => Except.ok (some h) }

/-- A chain environment in which gas estimation throws. -/
def envEstFail : ChainEnv :=
  { envOk with estimateGas := fun _ => Except.error "estimation failed" }

/-- A token run for token `"a"` whose fee lookup returns no gas price. -/
def runBad : TokenRun := { token := "a", flows := [flowA], feeGasPrice := none }

/-- A token run for token `"b"` with a current gas price of 1 wei. -/
def runGood : TokenRun := { token := "b", flows := [flowB], feeGasPrice := some 1 }

/-- The transaction `processToken envOk cfgW true priceNone runGood`
assembles for its single batch (dry run):
gas limit `⌊21000 × 1.2⌋`, gas price `⌊1 × 1.2⌋ = 1`. -/
def txB : Tx :=
  { toAddr := "liq",
    data := { token := "b", ops := [(0, "s2", "r2")] },
    gasLimit := 25200, gasPrice := 1, chainId := 10, nonce := 7 }

/-! ### Helper lemmas -/

theorem jsRound_mono {a b : ℚ} (h : a ≤ b) : jsRound a ≤ jsRound b :=
  Int.floor_le_floor (by linarith)

theorem jsRound_nonneg {a : ℚ} (h : 0 ≤ a) : 0 ≤ jsRound a :=
  Int.le_floor.mpr (by push_cast; linarith)

theorem timeMultiplier_of_le {pct : ℚ} (h : pct ≤ 100) : timeMultiplier pct = 1 := by
  unfold timeMultiplier
  rw [if_neg]
  rintro ⟨-, h100⟩
  linarith

theorem timeMultiplier_of_gt {pct : ℚ} (h : 100 < pct) :
    timeMultiplier pct = 1 + min ((pct - 100) * 4 / 100 / 24) 10 := by
  unfold timeMultiplier
  rw [if_pos ⟨by linarith, h⟩]

theorem one_le_timeMultiplier (pct : ℚ) : 1 ≤ timeMultiplier pct := by
  unfold timeMultiplier
  split
  · rename_i hc
    have : (0 : ℚ) ≤ min ((pct - 100) * 4 / 100 / 24) 10 := by
      apply le_min _ (by norm_num)
      have := hc.2
      linarith
    linarith
  · exact le_refl 1

theorem timeMultiplier_nonneg (pct : ℚ) : 0 ≤ timeMultiplier pct :=
  le_trans (by norm_num) (one_le_timeMultiplier pct)

theorem timeMultiplier_mono {c₁ c₂ : ℚ} (h : c₁ ≤ c₂) :
    timeMultiplier c₁ ≤ timeMultiplier c₂ := by
  rcases le_or_lt c₁ 100 with h1 | h1
  · rw [timeMultiplier_of_le h1]
    exact one_le_timeMultiplier c₂
  · rw [timeMultiplier_of_gt h1, timeMultiplier_of_gt (lt_of_lt_of_le h1 h)]
    have : (c₁ - 100) * 4 / 100 / 24 ≤ (c₂ - 100) * 4 / 100 / 24 := by linarith
    exact add_le_add_left (min_le_min this (le_refl 10)) 1

theorem baseMaxGasPrice_of_none {cfg : Config} {prices : PriceTable} {flow : Flow}
    (h : prices flow.token = none) :
    baseMaxGasPrice cfg prices flow = cfg.fallbackGasPriceLimit := by
  unfold baseMaxGasPrice dailyNFR
  rw [h]

theorem baseMaxGasPrice_of_zero_price {cfg : Config} {prices : PriceTable} {flow : Flow}
    (h : prices flow.token = some 0) :
    baseMaxGasPrice cfg prices flow = cfg.fallbackGasPriceLimit := by
  unfold baseMaxGasPrice dailyNFR
  rw [h]
  simp

theorem baseMaxGasPrice_of_known {cfg : Config} {prices : PriceTable} {flow : Flow} {p : ℚ}
    (h : prices flow.token = some p) (hp : p ≠ 0)
    (hd : jsRound ((flow.flowrate : ℚ) * 86400 * p) ≠ 0) :
    baseMaxGasPrice cfg prices flow
      = max cfg.minGasPriceLimit
          ((jsRound ((jsRound ((flow.flowrate : ℚ) * 86400 * p) : ℚ)
              * cfg.referenceGasPriceLimit / 10 ^ 18) : ℚ)) := by
  unfold baseMaxGasPrice dailyNFR
  rw [h]
  simp [hp, hd]

theorem baseMaxGasPrice_of_known_zero_daily {cfg : Config} {prices : PriceTable} {flow : Flow}
    {p : ℚ} (h : prices flow.token = some p) (hp : p ≠ 0)
    (hd : jsRound ((flow.flowrate : ℚ) * 86400 * p) = 0) :
    baseMaxGasPrice cfg prices flow = cfg.fallbackGasPriceLimit := by
  unfold baseMaxGasPrice dailyNFR
  rw [h]
  simp [hp, hd]

theorem baseMaxGasPrice_nonneg {cfg : Config} (prices : PriceTable) (flow : Flow)
    (hmin : 0 ≤ cfg.minGasPriceLimit) (hfb : 0 ≤ cfg.fallbackGasPriceLimit) :
    0 ≤ baseMaxGasPrice cfg prices flow := by
  unfold baseMaxGasPrice
  split
  · split
    · exact le_trans hmin (le_max_left _ _)
    · exact hfb
  · exact hfb

theorem baseMaxGasPrice_flowrate_irrelevant {cfg : Config} {prices : PriceTable} {flow : Flow}
    (h : prices flow.token = none) (fr : ℤ) :
    baseMaxGasPrice cfg prices { flow with flowrate := fr }
      = baseMaxGasPrice cfg prices flow := by
  have h' : prices ({ flow with flowrate := fr } : Flow).token = none := h
  rw [baseMaxGasPrice_of_none h', baseMaxGasPrice_of_none h]

theorem mem_insertDescBy {k : α → ℤ} {x a : α} {l : List α} :
    a ∈ insertDescBy k x l ↔ a = x ∨ a ∈ l := by
  induction l with
  | nil => simp [insertDescBy]
  | cons y ys ih =>
    unfold insertDescBy
    split
    · simp
    · simp only [List.mem_cons, ih]
      tauto

theorem mem_sortDescBy {k : α → ℤ} {a : α} {l : List α} :
    a ∈ sortDescBy k l ↔ a ∈ l := by
  induction l with
  | nil => simp [sortDescBy]
  | cons x xs ih =>
    unfold sortDescBy
    rw [mem_insertDescBy]
    simp [ih]

theorem pairwise_insertDescBy {k : α → ℤ} {x : α} {l : List α}
    (h : l.Pairwise (fun a b => k b ≤ k a)) :
    (insertDescBy k x l).Pairwise (fun a b => k b ≤ k a) := by
  induction l with
  | nil => simp [insertDescBy]
  | cons y ys ih =>
    rw [List.pairwise_cons] at h
    unfold insertDescBy
    split
    · rename_i hlt
      rw [List.pairwise_cons]
      refine ⟨?_, List.pairwise_cons.mpr h⟩
      intro b hb
      rcases List.mem_cons.mp hb with rfl | hb
      · exact le_of_lt hlt
      · exact le_trans (h.1 b hb) (le_of_lt hlt)
    · rename_i hnlt
      rw [List.pairwise_cons]
      refine ⟨?_, ih h.2⟩
      intro b hb
      rcases mem_insertDescBy.mp hb with rfl | hb
      · exact not_lt.mp hnlt
      · exact h.1 b hb

theorem pairwise_sortDescBy (k : α → ℤ) (l : List α) :
    (sortDescBy k l).Pairwise (fun a b => k b ≤ k a) := by
  induction l with
  | nil => simp [sortDescBy]
  | cons x xs ih => exact pairwise_insertDescBy ih

theorem chunkArray_flatten {l : List α} {size : ℕ} (h : size ≠ 0) :
    (chunkArray l size).flatten = l := by
  induction l, size using chunkArray.induct with
  | case1 => simp [chunkArray]
  | case2 x xs => exact absurd rfl h
  | case3 x xs size h0 ih =>
    unfold chunkArray
    rw [dif_neg h0]
    simp only [List.flatten_cons, ih h]
    exact List.take_append_drop size (x :: xs)

theorem chunkArray_length_le {l : List α} {size : ℕ} {c : List α}
    (hc : c ∈ chunkArray l size) : c.length ≤ size := by
  induction l, size using chunkArray.induct with
  | case1 => simp [chunkArray] at hc
  | case2 x xs => simp [chunkArray] at hc
  | case3 x xs size h0 ih =>
    unfold chunkArray at hc
    rw [dif_neg h0] at hc
    rcases List.mem_cons.mp hc with rfl | hc
    · simpa using List.length_take_le size (x :: xs)
    · exact ih hc

theorem mem_of_mem_chunkArray {l : List α} {size : ℕ} {c : List α} {a : α}
    (hc : c ∈ chunkArray l size) (ha : a ∈ c) : a ∈ l := by
  induction l, size using chunkArray.induct with
  | case1 => simp [chunkArray] at hc
  | case2 x xs => simp [chunkArray] at hc
  | case3 x xs size h0 ih =>
    unfold chunkArray at hc
    rw [dif_neg h0] at hc
    rcases List.mem_cons.mp hc with rfl | hc
    · exact List.take_subset size (x :: xs) ha
    · exact List.drop_subset size (x :: xs) (ih hc)

theorem liquidationPipeline_ok_gasPrice {env : ChainEnv} {cfg : Config} {dryRun : Bool}
    {token : String} {flows : List Flow} {mgp : ℤ} {o : BatchOutcome} {tr : List EffAction}
    (h : liquidationPipeline env cfg dryRun token flows mgp = (Except.ok o, tr)) :
    ∀ tx hash, (o = BatchOutcome.success tx hash ∨ o = BatchOutcome.dryRunLogged tx) →
      tx.gasPrice = mgp := by
  unfold liquidationPipeline at h
  cases hg : generateBatchLiquidationTxData env token flows with
  | error e => simp [hg] at h
  | ok txData =>
    simp only [hg] at h
    cases he : env.estimateGas txData with
    | error e => simp [he] at h
    | ok est =>
      simp only [he] at h
      cases hc : env.chainId with
      | error e => simp [hc] at h
      | ok cid =>
        simp only [hc] at h
        cases hn : env.nonce with
        | error e => simp [hn] at h
        | ok n =>
          simp only [hn] at h
          cases dryRun with
          | true =>
            simp only [if_true] at h
            rw [Prod.mk.injEq] at h
            obtain ⟨ho, -⟩ := h
            injection ho with ho
            intro tx hash hor
            rcases hor with rfl | rfl
            · simp at ho
            · injection ho with ho
              subst ho
              rfl
          | false =>
            simp only [Bool.false_eq_true, if_false] at h
            cases hs : env.sign
                (Tx.mk txData.toAddr txData.data (estimateGasLimit cfg est) mgp cid n) with
            | error e => simp [hs] at h
            | ok signedTx =>
              simp only [hs] at h
              cases hb : env.broadcast signedTx with
              | error e => simp [hb] at h
              | ok resp =>
                simp only [hb] at h
                cases hw : env.waitConf resp with
                | error e => simp [hw] at h
                | ok receiptHash =>
                  simp only [hw] at h
                  rw [Prod.mk.injEq] at h
                  obtain ⟨ho, -⟩ := h
                  injection ho with ho
                  intro tx hash hor
                  rcases hor with rfl | rfl
                  · injection ho with ho hh
                    subst ho
                    rfl
                  · simp at ho

theorem liquidationPipeline_dryRun (env : ChainEnv) (cfg : Config) (token : String)
    (flows : List Flow) (mgp : ℤ) :
    (EffAction.sign ∉ (liquidationPipeline env cfg true token flows mgp).2
      ∧ EffAction.broadcast ∉ (liquidationPipeline env cfg true token flows mgp).2)
    ∧ ((∃ tx, (liquidationPipeline env cfg true token flows mgp).1
          = Except.ok (BatchOutcome.dryRunLogged tx))
       ∨ (∃ e, (liquidationPipeline env cfg true token flows mgp).1 = Except.error e)) := by
  unfold liquidationPipeline
  cases hg : generateBatchLiquidationTxData env token flows with
  | error e => exact ⟨⟨by simp, by simp⟩, Or.inr ⟨e, rfl⟩⟩
  | ok txData =>
    simp only []
    cases he : env.estimateGas txData with
    | error e => exact ⟨⟨by simp, by simp⟩, Or.inr ⟨e, rfl⟩⟩
    | ok est =>
      simp only []
      cases hc : env.chainId with
      | error e => exact ⟨⟨by simp, by simp⟩, Or.inr ⟨e, rfl⟩⟩
      | ok cid =>
        simp only []
        cases hn : env.nonce with
        | error e => exact ⟨⟨by simp, by simp⟩, Or.inr ⟨e, rfl⟩⟩
        | ok n =>
          simp only [if_true]
          exact ⟨⟨by simp, by simp⟩, Or.inl ⟨_, rfl⟩⟩

theorem batchLiquidateFlows_fst {env : ChainEnv} {cfg : Config} {dryRun : Bool}
    {token : String} {flows : List Flow} {mgp : ℤ} :
    ((∀ e, (liquidationPipeline env cfg dryRun token flows mgp).1 = Except.error e →
        (batchLiquidateFlows env cfg dryRun token flows mgp).1 = BatchOutcome.failed e)
    ∧ (∀ o, (liquidationPipeline env cfg dryRun token flows mgp).1 = Except.ok o →
        (batchLiquidateFlows env cfg dryRun token flows mgp).1 = o))
    ∧ (batchLiquidateFlows env cfg dryRun token flows mgp).2
        = (liquidationPipeline env cfg dryRun token flows mgp).2 := by
  unfold batchLiquidateFlows
  rcases hp : liquidationPipeline env cfg dryRun token flows mgp with ⟨r, t⟩
  cases r with
  | error e => exact ⟨⟨fun e' he' => by simp at he'; rw [he'], fun o ho => by simp at ho⟩, rfl⟩
  | ok o => exact ⟨⟨fun e' he' => by simp at he', fun o' ho' => by simp at ho'; rw [ho']⟩, rfl⟩

theorem batchLiquidateFlows_gasPrice {env : ChainEnv} {cfg : Config} {dryRun : Bool}
    {token : String} {flows : List Flow} {mgp : ℤ} {tx : Tx} {hash : Option String}
    (h : (batchLiquidateFlows env cfg dryRun token flows mgp).1 = BatchOutcome.success tx hash
       ∨ (batchLiquidateFlows env cfg dryRun token flows mgp).1 = BatchOutcome.dryRunLogged tx) :
    tx.gasPrice = mgp := by
  unfold batchLiquidateFlows at h
  rcases hp : liquidationPipeline env cfg dryRun token flows mgp with ⟨r, t⟩
  rw [hp] at h
  cases r with
  | error e => rcases h with h | h <;> simp at h
  | ok o =>
    simp only [] at h
    refine liquidationPipeline_ok_gasPrice hp tx hash ?_
    rcases h with h | h
    · exact Or.inl h
    · exact Or.inr h

theorem runChunks_eq_map (env : ChainEnv) (cfg : Config) (dryRun : Bool) (token : String)
    (mgp : ℤ) (chunks : List (List Flow)) :
    runChunks env cfg dryRun token mgp chunks
      = Except.ok (chunks.map (fun c => (batchLiquidateFlows env cfg dryRun token c mgp).1)) := by
  induction chunks with
  | nil => rfl
  | cons c cs ih =>
    unfold runChunks
    rw [ih]
    rcases hb : batchLiquidateFlows env cfg dryRun token c mgp with ⟨o, t⟩
    simp [hb]

theorem processToken_missing_fee {env : ChainEnv} {cfg : Config} {dryRun : Bool}
    {prices : PriceTable} {tr : TokenRun} (hf : tr.flows ≠ []) (hg : tr.feeGasPrice = none) :
    processToken env cfg dryRun prices tr = Except.error "Current gas price not found" := by
  unfold processToken
  rw [if_neg (by simpa [List.isEmpty_iff] using hf), hg]
  rfl

theorem processToken_ok_of_fee {env : ChainEnv} {cfg : Config} {dryRun : Bool}
    {prices : PriceTable} {tr : TokenRun} {cg : ℚ} (hg : tr.feeGasPrice = some cg)
    (hcg : cg ≠ 0) :
    processToken env cfg dryRun prices tr
      = Except.ok (if tr.flows.isEmpty then []
          else (selectBatches cfg prices tr.flows cg).map
            (fun c => (batchLiquidateFlows env cfg dryRun tr.token c
                (jsFloor (cg * (6/5)))).1)) := by
  unfold processToken
  rw [hg]
  by_cases hf : tr.flows.isEmpty
  · rw [if_pos hf, if_pos hf]
  · rw [if_neg hf, if_neg hf]
    simp only [Option.getD_some]
    rw [if_neg hcg, runChunks_eq_map]

/-! ### Concrete evaluation lemmas used by witness theorems -/

theorem calculateMaxGasPrice_flowB_eval : calculateMaxGasPrice cfgW priceNone flowB = 10833 := by
  norm_num [calculateMaxGasPrice, baseMaxGasPrice, dailyNFR, timeMultiplier, priceNone, flowB,
    cfgW, jsRound]

theorem selectBatches_runGood_eval : selectBatches cfgW priceNone runGood.flows 1 = [[flowB]] := by
  simp only [selectBatches, runGood]
  rw [List.filter_cons_of_pos (by simp [calculateMaxGasPrice_flowB_eval])]
  rw [List.filter_nil]
  simp only [sortDescBy, insertDescBy]
  simp [chunkArray, cfgW]

theorem batchLiquidateFlows_flowB_eval :
    (batchLiquidateFlows envOk cfgW true "b" [flowB] 1).1 = BatchOutcome.dryRunLogged txB := by
  simp only [batchLiquidateFlows, liquidationPipeline, generateBatchLiquidationTxData, envOk,
    flowB]
  norm_num [estimateGasLimit, cfgW, jsFloor, txB]

theorem processToken_runGood_eval :
    processToken envOk cfgW true priceNone runGood
      = Except.ok [BatchOutcome.dryRunLogged txB] := by
  rw [processToken_ok_of_fee rfl (by norm_num)]
  rw [if_neg (by simp [runGood])]
  rw [selectBatches_runGood_eval]
  simp only [List.map_cons, List.map_nil]
  rw [show runGood.token = "b" from rfl]
  rw [show jsFloor ((1 : ℚ) * (6/5)) = 1 by norm_num [jsFloor]]
  rw [batchLiquidateFlows_flowB_eval]

/-! ### Claim theorems -/

/-- **C4**: the time-decay multiplier of `_calculateMaxGasPrice` equals
1 for every `consumedDepositPercentage ≤ 100`; above 100 it equals
`1 + min((pct − 100)·4/(100·24), 10)`; it is `1 + 4/24` at exactly 200
and exactly 11 for every `pct ≥ 6100`. -/
theorem timeMultiplier_spec (pct : ℚ) :
    (pct ≤ 100 → timeMultiplier pct = 1)
  ∧ (100 < pct → timeMultiplier pct = 1 + min ((pct - 100) * 4 / (100 * 24)) 10)
  ∧ timeMultiplier 200 = 1 + 4/24
  ∧ (6100 ≤ pct → timeMultiplier pct = 11) := by
  refine ⟨timeMultiplier_of_le, ?_, ?_, ?_⟩
  · intro h
    rw [timeMultiplier_of_gt h, div_div]
  · rw [timeMultiplier_of_gt (by norm_num), min_eq_left (by norm_num)]
    norm_num
  · intro h
    rw [timeMultiplier_of_gt (by linarith), min_eq_right (by linarith)]
    norm_num

/-- Witness for `timeMultiplier_spec`, at 50, 150 and 7000. -/
theorem timeMultiplier_spec_witness :
    ((50 : ℚ) ≤ 100 ∧ timeMultiplier 50 = 1)
  ∧ ((100 : ℚ) < 150
      ∧ timeMultiplier 150 = 1 + min (((150 : ℚ) - 100) * 4 / (100 * 24)) 10)
  ∧ ((6100 : ℚ) ≤ 7000 ∧ timeMultiplier 7000 = 11) :=
  ⟨⟨by norm_num, (timeMultiplier_spec 50).1 (by norm_num)⟩,
   ⟨by norm_num, (timeMultiplier_spec 150).2.1 (by norm_num)⟩,
   ⟨by norm_num, (timeMultiplier_spec 7000).2.2.2 (by norm_num)⟩⟩

/-- **C5**: for a token absent from the price table,
`_calculateMaxGasPrice` returns `round(fallbackGasPriceLimit × multiplier)`,
independently of the flowrate. -/
theorem calculateMaxGasPrice_unknownPrice (cfg : Config) (prices : PriceTable) (flow : Flow)
    (h : prices flow.token = none) :
    (calculateMaxGasPrice cfg prices flow
      = jsRound (cfg.fallbackGasPriceLimit * timeMultiplier flow.consumedDepositPercentage))
  ∧ (∀ fr : ℤ, calculateMaxGasPrice cfg prices { flow with flowrate := fr }
      = calculateMaxGasPrice cfg prices flow) := by
  constructor
  · unfold calculateMaxGasPrice
    rw [baseMaxGasPrice_of_none h]
  · intro fr
    unfold calculateMaxGasPrice
    rw [baseMaxGasPrice_flowrate_irrelevant h]

/-- Witness for `calculateMaxGasPrice_unknownPrice`, on the empty price
table. -/
theorem calculateMaxGasPrice_unknownPrice_witness :
    priceNone flowA.token = none
  ∧ ((calculateMaxGasPrice cfgW priceNone flowA
        = jsRound (cfgW.fallbackGasPriceLimit * timeMultiplier flowA.consumedDepositPercentage))
     ∧ (∀ fr : ℤ, calculateMaxGasPrice cfgW priceNone { flowA with flowrate := fr }
        = calculateMaxGasPrice cfgW priceNone flowA)) :=
  ⟨rfl, calculateMaxGasPrice_unknownPrice cfgW priceNone flowA rfl⟩

/-- **C10**: a token present in the price table with price exactly 0 is
treated like an unknown-price token: `_calculateMaxGasPrice` returns
`round(fallbackGasPriceLimit × multiplier)`, not
`round(minGasPriceLimit × multiplier)`. -/
theorem calculateMaxGasPrice_zeroPrice (cfg : Config) (prices : PriceTable) (flow : Flow)
    (h : prices flow.token = some 0) :
    calculateMaxGasPrice cfg prices flow
      = jsRound (cfg.fallbackGasPriceLimit * timeMultiplier flow.consumedDepositPercentage) := by
  unfold calculateMaxGasPrice
  rw [baseMaxGasPrice_of_zero_price h]

/-- Witness for `calculateMaxGasPrice_zeroPrice`: token `"a"` priced 0. -/
theorem calculateMaxGasPrice_zeroPrice_witness :
    priceA 0 flowA.token = some 0
  ∧ calculateMaxGasPrice cfgW (priceA 0) flowA
      = jsRound (cfgW.fallbackGasPriceLimit * timeMultiplier flowA.consumedDepositPercentage) :=
  ⟨rfl, calculateMaxGasPrice_zeroPrice cfgW (priceA 0) flowA rfl⟩

/-- **C2 counterexample**: token `"a"` is priced (10⁻⁶ USD) yet the
fallback limit is used, because `flowrate·86400·price = 0.0864` rounds
to 0 and the falsy guard sends it to the fallback branch: the code
returns 10000 where the claimed formula yields 100. -/
theorem claimC2_counterexample :
    priceA (1/1000000) flowA.token = some (1/1000000)
  ∧ calculateMaxGasPrice cfgW (priceA (1/1000000)) flowA = 10000
  ∧ jsRound (claimedBaseCeiling cfgW (1/1000000) flowA
      * timeMultiplier flowA.consumedDepositPercentage) = 100
  ∧ (10000 : ℤ) ≠ 100 := by
  refine ⟨rfl, ?_, ?_, by norm_num⟩
  · norm_num [calculateMaxGasPrice, baseMaxGasPrice, dailyNFR, timeMultiplier, priceA, flowA,
      cfgW, jsRound]
  · norm_num [claimedBaseCeiling, timeMultiplier, flowA, cfgW, jsRound]

/-- **C2 amended**: for a flow whose token price is known and nonzero,
if the normalized daily value `round(flowrate·86400·price)` is nonzero
the base ceiling is `max(min, round(dailyNFR·ref/10^18))` (note the two
nested roundings); if it rounds to zero, the fallback limit is used
instead. -/
theorem calculateMaxGasPrice_knownPrice (cfg : Config) (prices : PriceTable) (flow : Flow)
    (p : ℚ) (hp : prices flow.token = some p) (hp0 : p ≠ 0) :
    (jsRound ((flow.flowrate : ℚ) * 86400 * p) ≠ 0 →
      calculateMaxGasPrice cfg prices flow
        = jsRound (max cfg.minGasPriceLimit
            ((jsRound ((jsRound ((flow.flowrate : ℚ) * 86400 * p) : ℚ)
                * cfg.referenceGasPriceLimit / 10 ^ 18) : ℚ))
            * timeMultiplier flow.consumedDepositPercentage))
  ∧ (jsRound ((flow.flowrate : ℚ) * 86400 * p) = 0 →
      calculateMaxGasPrice cfg prices flow
        = jsRound (cfg.fallbackGasPriceLimit
            * timeMultiplier flow.consumedDepositPercentage)) := by
  constructor
  · intro hd
    unfold calculateMaxGasPrice
    rw [baseMaxGasPrice_of_known hp hp0 hd]
  · intro hd
    unfold calculateMaxGasPrice
    rw [baseMaxGasPrice_of_known_zero_daily hp hp0 hd]

/-- Witness for `calculateMaxGasPrice_knownPrice`: token `"a"` priced
`1/100` (nonzero daily value) and `1/1000000` (daily value rounds to
zero). -/
theorem calculateMaxGasPrice_knownPrice_witness :
    calculateMaxGasPrice cfgW (priceA (1/100)) flowA
      = jsRound (max cfgW.minGasPriceLimit
          ((jsRound ((jsRound ((flowA.flowrate : ℚ) * 86400 * (1/100)) : ℚ)
              * cfgW.referenceGasPriceLimit / 10 ^ 18) : ℚ))
          * timeMultiplier flowA.consumedDepositPercentage)
  ∧ calculateMaxGasPrice cfgW (priceA (1/1000000)) flowA
      = jsRound (cfgW.fallbackGasPriceLimit
          * timeMultiplier flowA.consumedDepositPercentage) :=
  ⟨(calculateMaxGasPrice_knownPrice cfgW (priceA (1/100)) flowA (1/100) rfl
      (by norm_num)).1 (by norm_num [jsRound, flowA]),
   (calculateMaxGasPrice_knownPrice cfgW (priceA (1/1000000)) flowA (1/1000000) rfl
      (by norm_num)).2 (by norm_num [jsRound, flowA])⟩

/-- **C3 counterexample**: raising the known token price from `10⁻⁶` to
`10⁻²` (all else equal) makes `_calculateMaxGasPrice` drop from 10000
to 100: with the lower price the daily value rounds to 0, which is
falsy and selects the (larger) fallback limit. -/
theorem claimC3_counterexample :
    (1 : ℚ)/1000000 < 1/100
  ∧ priceA (1/1000000) flowA.token = some (1/1000000)
  ∧ priceA (1/100) flowA.token = some (1/100)
  ∧ calculateMaxGasPrice cfgW (priceA (1/100)) flowA
      < calculateMaxGasPrice cfgW (priceA (1/1000000)) flowA := by
  refine ⟨by norm_num, rfl, rfl, ?_⟩
  have h1 : calculateMaxGasPrice cfgW (priceA (1/100)) flowA = 100 := by
    norm_num [calculateMaxGasPrice, baseMaxGasPrice, dailyNFR, timeMultiplier, priceA, flowA,
      cfgW, jsRound]
  have h2 : calculateMaxGasPrice cfgW (priceA (1/1000000)) flowA = 10000 := by
    norm_num [calculateMaxGasPrice, baseMaxGasPrice, dailyNFR, timeMultiplier, priceA, flowA,
      cfgW, jsRound]
  rw [h1, h2]
  norm_num

/-- **C3 amended**: all else equal, `_calculateMaxGasPrice` is
non-decreasing in `consumedDepositPercentage` (given nonnegative
configured limits), and non-decreasing in a known token price provided
the flowrate is nonnegative, the prices are positive, the reference
limit is nonnegative, and the normalized daily value at the smaller
price does not round to zero (the case the counterexample excludes). -/
theorem calculateMaxGasPrice_monotone :
    (∀ (cfg : Config) (prices : PriceTable) (flow : Flow) (c₁ c₂ : ℚ),
        0 ≤ cfg.minGasPriceLimit → 0 ≤ cfg.fallbackGasPriceLimit → c₁ ≤ c₂ →
        calculateMaxGasPrice cfg prices { flow with consumedDepositPercentage := c₁ }
          ≤ calculateMaxGasPrice cfg prices { flow with consumedDepositPercentage := c₂ })
  ∧ (∀ (cfg : Config) (prices₁ prices₂ : PriceTable) (flow : Flow) (p₁ p₂ : ℚ),
        prices₁ flow.token = some p₁ → prices₂ flow.token = some p₂ →
        0 < p₁ → p₁ ≤ p₂ → 0 ≤ flow.flowrate →
        jsRound ((flow.flowrate : ℚ) * 86400 * p₁) ≠ 0 →
        0 ≤ cfg.referenceGasPriceLimit →
        calculateMaxGasPrice cfg prices₁ flow ≤ calculateMaxGasPrice cfg prices₂ flow) := by
  constructor
  · intro cfg prices flow c₁ c₂ hmin hfb h
    unfold calculateMaxGasPrice
    have hbase : baseMaxGasPrice cfg prices { flow with consumedDepositPercentage := c₁ }
        = baseMaxGasPrice cfg prices { flow with consumedDepositPercentage := c₂ } := rfl
    rw [hbase]
    apply jsRound_mono
    exact mul_le_mul_of_nonneg_left (timeMultiplier_mono h)
      (baseMaxGasPrice_nonneg prices _ hmin hfb)
  · intro cfg prices₁ prices₂ flow p₁ p₂ h1 h2 hp₁ hle hfr hd₁ href
    have hfr' : (0 : ℚ) ≤ (flow.flowrate : ℚ) := by exact_mod_cast hfr
    have hprod : (flow.flowrate : ℚ) * 86400 * p₁ ≤ (flow.flowrate : ℚ) * 86400 * p₂ := by
      nlinarith
    have hd : jsRound ((flow.flowrate : ℚ) * 86400 * p₁)
        ≤ jsRound ((flow.flowrate : ℚ) * 86400 * p₂) := jsRound_mono hprod
    have hd₁pos : 0 < jsRound ((flow.flowrate : ℚ) * 86400 * p₁) :=
      lt_of_le_of_ne (jsRound_nonneg (by nlinarith)) (Ne.symm hd₁)
    have hd₂ : jsRound ((flow.flowrate : ℚ) * 86400 * p₂) ≠ 0 := by omega
    have hp₂ : p₂ ≠ 0 := ne_of_gt (lt_of_lt_of_le hp₁ hle)
    unfold calculateMaxGasPrice
    rw [baseMaxGasPrice_of_known h1 (ne_of_gt hp₁) hd₁,
      baseMaxGasPrice_of_known h2 hp₂ hd₂]
    apply jsRound_mono
    apply mul_le_mul_of_nonneg_right _ (timeMultiplier_nonneg _)
    apply max_le_max (le_refl _)
    have harg : ((jsRound ((flow.flowrate : ℚ) * 86400 * p₁) : ℚ)
          * cfg.referenceGasPriceLimit / 10 ^ 18)
        ≤ ((jsRound ((flow.flowrate : ℚ) * 86400 * p₂) : ℚ)
          * cfg.referenceGasPriceLimit / 10 ^ 18) := by
      have hdq : ((jsRound ((flow.flowrate : ℚ) * 86400 * p₁) : ℚ))
          ≤ ((jsRound ((flow.flowrate : ℚ) * 86400 * p₂) : ℚ)) := by exact_mod_cast hd
      have h18 : (0 : ℚ) ≤ 10 ^ 18 := by norm_num
      exact div_le_div_of_nonneg_right (mul_le_mul_of_nonneg_right hdq href) h18
    exact_mod_cast jsRound_mono harg

/-- Witness for `calculateMaxGasPrice_monotone`: percentages 50 ≤ 150
on the empty table, and prices `1/100 ≤ 1/50` for token `"a"`. -/
theorem calculateMaxGasPrice_monotone_witness :
    calculateMaxGasPrice cfgW priceNone { flowA with consumedDepositPercentage := 50 }
      ≤ calculateMaxGasPrice cfgW priceNone { flowA with consumedDepositPercentage := 150 }
  ∧ calculateMaxGasPrice cfgW (priceA (1/100)) flowA
      ≤ calculateMaxGasPrice cfgW (priceA (1/50)) flowA :=
  ⟨calculateMaxGasPrice_monotone.1 cfgW priceNone flowA 50 150 (by norm_num [cfgW])
      (by norm_num [cfgW]) (by norm_num),
   calculateMaxGasPrice_monotone.2 cfgW (priceA (1/100)) (priceA (1/50)) flowA (1/100) (1/50)
      rfl rfl (by norm_num) (by norm_num) (by norm_num [flowA])
      (by norm_num [jsRound, flowA]) (by norm_num [cfgW])⟩

/-- **C6**: the filter/sort/chunk selection of `processAll` only keeps
flows whose max gas price is at least the current one, bounds every
batch by `batchSize`, and the flattened batch sequence is
non-increasing by max gas price. -/
theorem selectBatches_spec (cfg : Config) (prices : PriceTable) (flows : List Flow)
    (currentGasPrice : ℚ) (hbs : 0 < cfg.batchSize) :
    (∀ b ∈ selectBatches cfg prices flows currentGasPrice, ∀ f ∈ b,
        currentGasPrice ≤ (calculateMaxGasPrice cfg prices f : ℚ))
  ∧ (∀ b ∈ selectBatches cfg prices flows currentGasPrice, b.length ≤ cfg.batchSize)
  ∧ (selectBatches cfg prices flows currentGasPrice).flatten.Pairwise
      (fun a b => calculateMaxGasPrice cfg prices b ≤ calculateMaxGasPrice cfg prices a) := by
  have hbs' : cfg.batchSize ≠ 0 := Nat.pos_iff_ne_zero.mp hbs
  simp only [selectBatches]
  refine ⟨?_, ?_, ?_⟩
  · intro b hb f hf
    have hmem := mem_of_mem_chunkArray hb hf
    rw [mem_sortDescBy] at hmem
    simpa using (List.mem_filter.mp hmem).2
  · intro b hb
    exact chunkArray_length_le hb
  · rw [chunkArray_flatten hbs']
    exact pairwise_sortDescBy _ _

/-- Witness for `selectBatches_spec`: two flows, fee 900 wei, batch
size 1. -/
theorem selectBatches_spec_witness :
    0 < cfgW.batchSize
  ∧ ((∀ b ∈ selectBatches cfgW priceNone [flowA, flowB] 900, ∀ f ∈ b,
        (900 : ℚ) ≤ (calculateMaxGasPrice cfgW priceNone f : ℚ))
     ∧ (∀ b ∈ selectBatches cfgW priceNone [flowA, flowB] 900, b.length ≤ cfgW.batchSize)
     ∧ (selectBatches cfgW priceNone [flowA, flowB] 900).flatten.Pairwise
         (fun a b => calculateMaxGasPrice cfgW priceNone b
            ≤ calculateMaxGasPrice cfgW priceNone a)) :=
  ⟨by norm_num [cfgW], selectBatches_spec cfgW priceNone [flowA, flowB] 900
    (by norm_num [cfgW])⟩

/-- **C7**: an error thrown anywhere inside `batchLiquidateFlows`
becomes a logged `failed` outcome; the per-token chunk loop therefore
never propagates an exception and produces one outcome per batch, and a
token with a usable gas price always completes (so `processAll`
proceeds to the remaining batches and tokens). -/
theorem batchFailure_isolated (env : ChainEnv) (cfg : Config) (dryRun : Bool)
    (token : String) (mgp : ℤ) (chunks : List (List Flow)) :
    (runChunks env cfg dryRun token mgp chunks
      = Except.ok (chunks.map (fun c => (batchLiquidateFlows env cfg dryRun token c mgp).1)))
  ∧ (∀ (c : List Flow) (e : String),
        (liquidationPipeline env cfg dryRun token c mgp).1 = Except.error e →
        (batchLiquidateFlows env cfg dryRun token c mgp).1 = BatchOutcome.failed e)
  ∧ (∀ (prices : PriceTable) (tr : TokenRun) (cg : ℚ), tr.feeGasPrice = some cg → cg ≠ 0 →
        ∃ outs, processToken env cfg dryRun prices tr = Except.ok outs) :=
  ⟨runChunks_eq_map env cfg dryRun token mgp chunks,
   fun _ e he => batchLiquidateFlows_fst.1.1 e he,
   fun _ _ cg hg hcg => ⟨_, processToken_ok_of_fee hg hcg⟩⟩

/-- Witness for `batchFailure_isolated`: gas estimation throws for the
first of two identical batches, both still get an outcome, and a token
with fee 1 completes. -/
theorem batchFailure_isolated_witness :
    (liquidationPipeline envEstFail cfgW true "a" [flowA] 1).1
        = Except.error "estimation failed"
  ∧ (batchLiquidateFlows envEstFail cfgW true "a" [flowA] 1).1
        = BatchOutcome.failed "estimation failed"
  ∧ runChunks envEstFail cfgW true "a" 1 [[flowA], [flowA]]
        = Except.ok ([[flowA], [flowA]].map
            (fun c => (batchLiquidateFlows envEstFail cfgW true "a" c 1).1))
  ∧ (∃ outs, processToken envEstFail cfgW true priceNone runGood = Except.ok outs) :=
  ⟨rfl,
   (batchFailure_isolated envEstFail cfgW true "a" 1 [[flowA], [flowA]]).2.1 [flowA]
      "estimation failed" rfl,
   (batchFailure_isolated envEstFail cfgW true "a" 1 [[flowA], [flowA]]).1,
   (batchFailure_isolated envEstFail cfgW true "a" 1 [[flowA], [flowA]]).2.2 priceNone
      runGood 1 rfl (by norm_num)⟩

/-- **C8**: in dry-run mode `batchLiquidateFlows` never invokes the
sign or broadcast oracles (they are absent from the effect trace), and
its outcome is either the logged fully-assembled transaction or a
logged failure. -/
theorem dryRun_never_signs (env : ChainEnv) (cfg : Config) (token : String)
    (flows : List Flow) (mgp : ℤ) :
    (EffAction.sign ∉ (batchLiquidateFlows env cfg true token flows mgp).2
      ∧ EffAction.broadcast ∉ (batchLiquidateFlows env cfg true token flows mgp).2)
  ∧ ((∃ tx, (batchLiquidateFlows env cfg true token flows mgp).1
        = BatchOutcome.dryRunLogged tx)
     ∨ (∃ e, (batchLiquidateFlows env cfg true token flows mgp).1
        = BatchOutcome.failed e)) := by
  obtain ⟨⟨hs, hb⟩, ho⟩ := liquidationPipeline_dryRun env cfg token flows mgp
  have htr := @batchLiquidateFlows_fst env cfg true token flows mgp
  refine ⟨⟨by rw [htr.2]; exact hs, by rw [htr.2]; exact hb⟩, ?_⟩
  rcases ho with ⟨tx, htx⟩ | ⟨e, he⟩
  · exact Or.inl ⟨tx, htr.1.2 _ htx⟩
  · exact Or.inr ⟨e, htr.1.1 e he⟩

/-- Witness for `dryRun_never_signs`, on the all-succeeding
environment. -/
theorem dryRun_never_signs_witness :
    (EffAction.sign ∉ (batchLiquidateFlows envOk cfgW true "a" [flowA] 1).2
      ∧ EffAction.broadcast ∉ (batchLiquidateFlows envOk cfgW true "a" [flowA] 1).2)
  ∧ ((∃ tx, (batchLiquidateFlows envOk cfgW true "a" [flowA] 1).1
        = BatchOutcome.dryRunLogged tx)
     ∨ (∃ e, (batchLiquidateFlows envOk cfgW true "a" [flowA] 1).1
        = BatchOutcome.failed e)) :=
  dryRun_never_signs envOk cfgW "a" [flowA] 1

/-- **C9 counterexample**: with a current gas price of 1 wei the
assembled transaction carries gas price `⌊1 × 1.2⌋ = 1`, which differs
from `1 × 1.2 = 6/5`: the claimed exact equality fails (the source
floors the product). -/
theorem claimC9_counterexample :
    runGood.feeGasPrice = some 1
  ∧ processToken envOk cfgW true priceNone runGood
      = Except.ok [BatchOutcome.dryRunLogged txB]
  ∧ (txB.gasPrice : ℚ) ≠ (1 : ℚ) * (6/5) :=
  ⟨rfl, processToken_runGood_eval, by norm_num [txB]⟩

/-- **C9 amended**: every transaction assembled for a batch of a token
carries gas price `⌊currentGasPrice × 1.2⌋`, where `currentGasPrice` is
the fee fetched once for that token; the per-flow ceilings are not
used. -/
theorem batch_txGasPrice (env : ChainEnv) (cfg : Config) (dryRun : Bool)
    (prices : PriceTable) (tr : TokenRun) (cg : ℚ) (outs : List BatchOutcome)
    (hg : tr.feeGasPrice = some cg)
    (hok : processToken env cfg dryRun prices tr = Except.ok outs) :
    ∀ o ∈ outs, ∀ (tx : Tx) (hash : Option String),
      (o = BatchOutcome.success tx hash ∨ o = BatchOutcome.dryRunLogged tx) →
      tx.gasPrice = jsFloor (cg * (6/5)) := by
  unfold processToken at hok
  rw [hg] at hok
  by_cases hf : tr.flows.isEmpty
  · rw [if_pos hf] at hok
    injection hok with hok
    subst hok
    intro o ho
    simp at ho
  · rw [if_neg hf] at hok
    simp only [Option.getD_some] at hok
    by_cases hcg : cg = 0
    · rw [if_pos hcg] at hok
      exact absurd hok (by simp)
    · rw [if_neg hcg, runChunks_eq_map] at hok
      injection hok with hok
      subst hok
      intro o ho tx hash hor
      obtain ⟨c, hc, rfl⟩ := List.mem_map.mp ho
      exact batchLiquidateFlows_gasPrice hor

/-- Witness for `batch_txGasPrice`: the dry-run transaction for
`runGood` (fee 1 wei) has gas price `⌊1 × 1.2⌋`. -/
theorem batch_txGasPrice_witness :
    runGood.feeGasPrice = some 1
  ∧ processToken envOk cfgW true priceNone runGood
      = Except.ok [BatchOutcome.dryRunLogged txB]
  ∧ txB.gasPrice = jsFloor ((1 : ℚ) * (6/5)) :=
  ⟨rfl, processToken_runGood_eval,
   batch_txGasPrice envOk cfgW true priceNone runGood 1 [BatchOutcome.dryRunLogged txB] rfl
     processToken_runGood_eval (BatchOutcome.dryRunLogged txB) (List.mem_singleton.mpr rfl)
     txB none (Or.inr rfl)⟩

/-- **C1 counterexample**: two tokens, the first with a flow to
liquidate but no current gas price.  `processAll` throws at the first
token and the run ends: no outcome is produced for the second token,
although it also has flows to liquidate and is processable on its
own. -/
theorem claimC1_counterexample :
    runBad.flows ≠ [] ∧ runBad.feeGasPrice = none ∧ runGood.flows ≠ []
  ∧ processAll envOk cfgW true priceNone [runBad, runGood]
      = ([], some "Current gas price not found")
  ∧ processToken envOk cfgW true priceNone runGood
      = Except.ok [BatchOutcome.dryRunLogged txB] := by
  refine ⟨by simp [runBad], rfl, by simp [runGood], ?_, processToken_runGood_eval⟩
  unfold processAll
  rw [processToken_missing_fee (by simp [runBad]) rfl]

/-- **C1 amended**: if, while processing a token that has flows to
liquidate, no current gas price is available, `processAll` throws and
the whole call aborts: the tokens already processed keep their
outcomes, but neither the failing token nor any remaining token of the
run is processed (in loop mode the caller catches the error and starts
a fresh run later). -/
theorem processAll_gasPriceMissing_aborts (env : ChainEnv) (cfg : Config) (dryRun : Bool)
    (prices : PriceTable) (pre : List TokenRun) (tr : TokenRun) (rest : List TokenRun)
    (hpre : ∀ t ∈ pre, ∃ outs, processToken env cfg dryRun prices t = Except.ok outs)
    (hf : tr.flows ≠ []) (hg : tr.feeGasPrice = none) :
    (processAll env cfg dryRun prices (pre ++ tr :: rest)).2
        = some "Current gas price not found"
  ∧ (processAll env cfg dryRun prices (pre ++ tr :: rest)).1.length = pre.length := by
  induction pre with
  | nil =>
    simp only [List.nil_append]
    unfold processAll
    rw [processToken_missing_fee hf hg]
    exact ⟨rfl, rfl⟩
  | cons t ts ih =>
    obtain ⟨outs, houts⟩ := hpre t (List.mem_cons_self t ts)
    obtain ⟨ih1, ih2⟩ := ih (fun t' ht' => hpre t' (List.mem_cons_of_mem t ht'))
    simp only [List.cons_append]
    unfold processAll
    rw [houts]
    rcases hrec : processAll env cfg dryRun prices (ts ++ tr :: rest) with ⟨others, err⟩
    rw [hrec] at ih1 ih2
    simp only [] at ih1 ih2 ⊢
    exact ⟨ih1, by simp [ih2]⟩

/-- Witness for `processAll_gasPriceMissing_aborts`: empty prefix, the
failing token first, one further token that is never processed. -/
theorem processAll_gasPriceMissing_aborts_witness :
    (∀ t ∈ ([] : List TokenRun), ∃ outs,
        processToken envOk cfgW true priceNone t = Except.ok outs)
  ∧ runBad.flows ≠ [] ∧ runBad.feeGasPrice = none
  ∧ ((processAll envOk cfgW true priceNone ([] ++ runBad :: [runGood])).2
        = some "Current gas price not found"
     ∧ (processAll envOk cfgW true priceNone ([] ++ runBad :: [runGood])).1.length
        = ([] : List TokenRun).length) :=
  ⟨by simp, by simp [runBad], rfl,
   processAll_gasPriceMissing_aborts envOk cfgW true priceNone [] runBad [runGood]
     (by simp) (by simp [runBad]) rfl⟩

end Graphinator
